import Mathlib

/-!
Shallow embedding of the RBAC authorization core of the
special-risk-allowance-workflow repository.

The definitions below translate, record for record and branch for branch,
the TypeScript in `lib/domains/permission` (types, repository, service):

* `Permission`, `Role`, `RolePermission`, `UserRole` mirror the entity
  types (audit timestamps are omitted; `Date` values become `Nat`
  timestamps, `Date | null` becomes `Option Nat`).
* The Prisma store is a `DB` of lists; Prisma `where` clauses become
  boolean row predicates, `include` joins become explicit lookups.
* `getAllUserPermissions`, `getUserRoles`, `hasRole`,
  `getEffectivePermissions`, `checkPermission`, `checkPermissions`
  follow `userRoleRepository` / `authorizationService`.
* `assign` / `revoke` model the assignment store, `grantPermission` /
  `revokePermission` the role-permission grants, and the
  `permissionService` write guards are modelled as state-passing
  functions returning `Except`.

JavaScript truthiness of optional string parameters (`if (departmentId)`)
is modelled by `truthyStr`; `departmentId !== undefined` is modelled by
`Option.isSome`.  JavaScript object-literal semantics are preserved: in
`userRoleRepository.hasRole` a spread re-assigns the `OR` key, so the
expiry disjunction is dropped whenever a department argument is present,
and the embedding reproduces that.
-/

namespace Rbac

/-- `PermissionScope` enum: OWN | DEPARTMENT | ALL. -/
inductive Scope where
  | OWN
  | DEPARTMENT
  | ALL
deriving DecidableEq, Repr

/-- The `scopePriority` record in `authorizationService.checkPermission`:
ALL = 3, DEPARTMENT = 2, OWN = 1. -/
def scopePriority : Scope → Nat
  | .ALL => 3
  | .DEPARTMENT => 2
  | .OWN => 1

/-- `PermissionEntity` (id, code, name, description, resource, action,
scope, isActive, isSystem); `createdAt`/`updatedAt` omitted.  `resource`
and `action` are the string tags of the TS union types. -/
structure Permission where
  id : String
  code : String
  name : String
  description : Option String
  resource : String
  action : String
  scope : Scope
  isActive : Bool
  isSystem : Bool
deriving DecidableEq, Repr

/-- `RoleEntity`, reduced to the fields the evaluation engine reads. -/
structure Role where
  id : String
  code : String
  level : Nat
  isActive : Bool
  isSystem : Bool
deriving DecidableEq, Repr

/-- `RolePermission` join row (grant). -/
structure RolePermission where
  roleId : String
  permissionId : String
  grantedById : Option String
deriving DecidableEq, Repr

/-- `UserRoleEntity`: a user-role assignment row. -/
structure UserRole where
  id : String
  userId : String
  roleId : String
  departmentId : Option String
  assignedById : Option String
  assignedAt : Nat
  expiresAt : Option Nat
  isActive : Bool
deriving DecidableEq, Repr

/-- The relational store reached through the Prisma client. -/
structure DB where
  permissions : List Permission
  roles : List Role
  rolePermissions : List RolePermission
  userRoles : List UserRole
deriving Repr

/-- JavaScript truthiness of a `string | undefined` value
(`undefined` and `""` are falsy). -/
def truthyStr : Option String → Bool
  | none => false
  | some s => !s.isEmpty

/-- The Prisma clause `expiresAt: { gt: now }`. -/
def expGt (now : Nat) : Option Nat → Bool
  | none => false
  | some t => now < t

/-- The recurring clause `OR: [{ expiresAt: null }, { expiresAt: { gt: now } }]`. -/
def notExpired (now : Nat) (e : Option Nat) : Bool :=
  e == none || expGt now e

/-- Relation lookup `userRole.role` (foreign key `roleId`). -/
def DB.findRole (db : DB) (roleId : String) : Option Role :=
  db.roles.find? (fun r => r.id == roleId)

/-- The relation filter `role: { isActive: true }`. -/
def roleIsActive (db : DB) (roleId : String) : Bool :=
  match db.findRole roleId with
  | some r => r.isActive
  | none => false

/-- `role.rolePermissions` with the nested filter
`where: { permission: { isActive: true } }`, joined to the permission
rows (`include: { permission: true }`). -/
def activeRolePermissions (db : DB) (roleId : String) : List Permission :=
  (db.rolePermissions.filter (fun rp => rp.roleId == roleId)).filterMap
    (fun rp =>
      (db.permissions.find? (fun p => p.id == rp.permissionId)).filter
        (fun p => p.isActive))

/-- Row predicate of `userRoleRepository.getAllUserPermissions`: the base
`where` requires the user, an active row, an active role and
non-expiry; when a (truthy) `departmentId` is passed, the `OR` key is
re-assigned to the four-way disjunction combining global/department
with the two non-expiry cases. -/
def userRoleRowQualifies (db : DB) (now : Nat) (userId : String)
    (departmentId : Option String) (ur : UserRole) : Bool :=
  ur.userId == userId && ur.isActive && roleIsActive db ur.roleId &&
    (if truthyStr departmentId then
      (ur.departmentId == none && ur.expiresAt == none) ||
      (ur.departmentId == none && expGt now ur.expiresAt) ||
      (ur.departmentId == departmentId && ur.expiresAt == none) ||
      (ur.departmentId == departmentId && expGt now ur.expiresAt)
     else
      notExpired now ur.expiresAt)

/-- One step of the dedup-by-id `Map` loop: add the permission unless one
with its id was already collected. -/
def dedupStep (acc : List Permission) (p : Permission) : List Permission :=
  if acc.any (fun q => q.id == p.id) then acc else acc ++ [p]

/-- The dedup-by-id `Map` loop in `getAllUserPermissions` (and the
`seenPermissionIds` set in `getEffectivePermissions`): keep the first
row seen for each permission id, in encounter order. -/
def dedupPermsById (ps : List Permission) : List Permission :=
  ps.foldl dedupStep []

/-- `userRoleRepository.getAllUserPermissions(userId, departmentId?)`. -/
def getAllUserPermissions (db : DB) (now : Nat) (userId : String)
    (departmentId : Option String) : List Permission :=
  dedupPermsById
    (((db.userRoles.filter (userRoleRowQualifies db now userId departmentId)).map
      (fun ur => activeRolePermissions db ur.roleId)).flatten)

/-- `UserRoleWithDetails`: an assignment row joined with its role and the
role's active permissions. -/
structure UserRoleWithDetails where
  userRole : UserRole
  role : Role
  permissions : List Permission
deriving Repr

/-- `userRoleRepository.getUserRoles(userId)`: active, non-expired rows of
the user, joined with their role (post-filtered to active roles) and the
role's active permissions. -/
def getUserRoles (db : DB) (now : Nat) (userId : String) : List UserRoleWithDetails :=
  ((db.userRoles.filter (fun ur =>
      ur.userId == userId && ur.isActive && notExpired now ur.expiresAt)).filterMap
    (fun ur =>
      match db.findRole ur.roleId with
      | some r =>
          some { userRole := ur, role := r,
                 permissions := activeRolePermissions db ur.roleId }
      | none => none)).filter (fun d => d.role.isActive)

/-- `userRoleRepository.hasRole(userId, roleCode, departmentId?)`.
The TS builds one object literal whose `OR` key is written twice: first
the expiry disjunction, then (when `departmentId !== undefined`) a spread
with the department disjunction.  The later key wins, so with a
department argument the expiry condition is absent. -/
def hasRole (db : DB) (now : Nat) (userId roleCode : String)
    (departmentId : Option String) : Bool :=
  db.userRoles.any (fun ur =>
    ur.userId == userId && ur.isActive &&
    (match db.findRole ur.roleId with
     | some r => r.code == roleCode && r.isActive
     | none => false) &&
    (match departmentId with
     | some d => ur.departmentId == some d || ur.departmentId == none
     | none => notExpired now ur.expiresAt))

/-- The dedup-by-id loop for roles in `getEffectivePermissions`. -/
def dedupRolesById (rs : List Role) : List Role :=
  rs.foldl (fun acc r => if acc.any (fun q => q.id == r.id) then acc else acc ++ [r]) []

/-- One step of the `departmentRoles` map construction. -/
def addDeptRole (acc : List (String × List Role)) (dept : String) (r : Role) :
    List (String × List Role) :=
  if acc.any (fun e => e.1 == dept) then
    acc.map (fun e => if e.1 == dept then (e.1, e.2 ++ [r]) else e)
  else
    acc ++ [(dept, [r])]

/-- `UserEffectivePermissions` (computedAt omitted). -/
structure UserEffectivePermissions where
  userId : String
  permissions : List Permission
  roles : List Role
  departmentRoles : List (String × List Role)
deriving Repr

/-- `authorizationService.getEffectivePermissions(userId)`. -/
def getEffectivePermissions (db : DB) (now : Nat) (userId : String) :
    UserEffectivePermissions :=
  let userRoles := getUserRoles db now userId
  { userId := userId
    permissions := dedupPermsById ((userRoles.map (fun d => d.permissions)).flatten)
    roles := dedupRolesById (userRoles.map (fun d => d.role))
    departmentRoles :=
      userRoles.foldl (fun acc d =>
        match d.userRole.departmentId with
        | some dept => addDeptRole acc dept d.role
        | none => acc) [] }

/-- `PermissionCheckRequest`. -/
structure PermissionCheckRequest where
  userId : String
  resource : String
  action : String
  targetDepartmentId : Option String
  targetOwnerId : Option String
deriving Repr

/-- `PermissionCheckResult`. -/
structure PermissionCheckResult where
  allowed : Bool
  reason : Option String
  matchedPermission : Option Permission
  effectiveScope : Option Scope
deriving DecidableEq, Repr

/-- `.toLowerCase()` on the ASCII enum tags. -/
def lowerStr (s : String) : String :=
  String.mk (s.data.map Char.toLower)

/-- The interpolated code
`resource.toLowerCase() + ":" + action.toLowerCase()`. -/
def permissionCode (resource action : String) : String :=
  lowerStr resource ++ ":" ++ lowerStr action

/-- The guard `targetOwnerId && targetOwnerId !== userId` of the scope
validation step (truthiness on the optional string). -/
def ownerMismatch (targetOwnerId : Option String) (userId : String) : Bool :=
  match targetOwnerId with
  | some o => !o.isEmpty && o != userId
  | none => false

/-- One comparison of the descending sort by `scopePriority`: keep the
accumulated candidate unless the next element has strictly higher
priority (stability of `Array.prototype.sort` makes the earliest maximal
element the head). -/
def scopeMax (q r : Permission) : Permission :=
  if scopePriority q.scope < scopePriority r.scope then r else q

/-- `matchingPermissions.sort((a, b) => prio[b] - prio[a])[0]`: a stable
descending sort followed by taking the head returns the earliest element
of maximal scope priority, here computed by a fold. -/
def bestOf (m : Permission) (rest : List Permission) : Permission :=
  rest.foldl scopeMax m

/-- `authorizationService.checkPermission(request)`. -/
def checkPermission (db : DB) (now : Nat) (req : PermissionCheckRequest) :
    PermissionCheckResult :=
  let permissions := getAllUserPermissions db now req.userId req.targetDepartmentId
  let matchingPermissions := permissions.filter
    (fun p => p.resource == req.resource && p.action == req.action)
  match matchingPermissions with
  | [] =>
    match permissions.find?
        (fun p => p.resource == req.resource && p.action == "MANAGE") with
    | none =>
      { allowed := false
        reason := some ("No permission for " ++ permissionCode req.resource req.action)
        matchedPermission := none
        effectiveScope := none }
    | some managePermission =>
      { allowed := true
        reason := none
        matchedPermission := some managePermission
        effectiveScope := some managePermission.scope }
  | m :: rest =>
    let bestPermission := bestOf m rest
    if bestPermission.scope == Scope.OWN && ownerMismatch req.targetOwnerId req.userId then
      { allowed := false
        reason := some "Permission only allows access to own resources"
        matchedPermission := some bestPermission
        effectiveScope := some bestPermission.scope }
    else
      { allowed := true
        reason := none
        matchedPermission := some bestPermission
        effectiveScope := some bestPermission.scope }

/-- One entry of `authorizationService.checkPermissions`: the
exact-match-or-MANAGE membership test over the gathered set. -/
def checkPermissionsEntry (permissions : List Permission)
    (resource action : String) : Bool :=
  permissions.any (fun p =>
    (p.resource == resource && p.action == action) ||
    (p.resource == resource && p.action == "MANAGE"))

/-- `AssignRoleInput` (the `departmentId ?? null` coalescing is the
`Option` itself; `expiresAt` a timestamp). -/
structure AssignRoleInput where
  userId : String
  roleId : String
  departmentId : Option String
  assignedById : Option String
  expiresAt : Option Nat
deriving Repr

/-- The `findFirst` condition of `userRoleRepository.assign` and the
`updateMany` condition of `userRoleRepository.revoke`: same
`(userId, roleId, departmentId)` triple, null department distinguished. -/
def matchesTriple (userId roleId : String) (departmentId : Option String)
    (ur : UserRole) : Bool :=
  ur.userId == userId && ur.roleId == roleId && ur.departmentId == departmentId

/-- The `data` clause of the `update` branch of `assign`: reactivate and
overwrite `expiresAt`, `assignedById`, `assignedAt`. -/
def reactivateRow (now : Nat) (a : AssignRoleInput) (ur : UserRole) : UserRole :=
  { ur with isActive := true, expiresAt := a.expiresAt,
            assignedById := a.assignedById, assignedAt := now }

/-- The `data` clause of `revoke`'s `updateMany`. -/
def deactivateRow (ur : UserRole) : UserRole :=
  { ur with isActive := false }

/-- `userRoleRepository.assign(data)`: find an existing row for the
triple; if present, update it by id (reactivate, overwrite `expiresAt`,
`assignedById`, `assignedAt := now`); otherwise insert a new row (the
store defaults `isActive` to true and `assignedAt` to now). -/
def assign (store : List UserRole) (now : Nat) (newId : String)
    (a : AssignRoleInput) : List UserRole :=
  match store.find? (matchesTriple a.userId a.roleId a.departmentId) with
  | some existing =>
    store.map (fun ur => if ur.id == existing.id then reactivateRow now a ur else ur)
  | none =>
    store ++ [{ id := newId, userId := a.userId, roleId := a.roleId,
                departmentId := a.departmentId, assignedById := a.assignedById,
                assignedAt := now, expiresAt := a.expiresAt, isActive := true }]

/-- `userRoleRepository.revoke(userId, roleId, departmentId?)`:
`updateMany` setting `isActive := false` on every row of the triple. -/
def revoke (store : List UserRole) (userId roleId : String)
    (departmentId : Option String) : List UserRole :=
  store.map (fun ur =>
    if matchesTriple userId roleId departmentId ur then deactivateRow ur else ur)

/-- The rows of one `(user, role, department)` triple in the store. -/
def tripleRows (store : List UserRole) (userId roleId : String)
    (departmentId : Option String) : List UserRole :=
  store.filter (matchesTriple userId roleId departmentId)

/-- Two assignment rows keyed by the same `(user, role, department)`
triple. -/
def sameTriple (a b : UserRole) : Bool :=
  a.userId == b.userId && a.roleId == b.roleId && a.departmentId == b.departmentId

/-- The store invariant: no two rows share a `(user, role, department)`
triple (the `user_roles_user_id_role_id_department_id_key` unique
index). -/
def atMostOnePerTriple (store : List UserRole) : Prop :=
  store.Pairwise (fun a b => sameTriple a b = false)

/-- `GrantPermissionInput`. -/
structure GrantPermissionInput where
  roleId : String
  permissionId : String
  grantedById : Option String
deriving Repr

/-- `roleRepository.grantPermission(data)`: Prisma `upsert` on the unique
`(roleId, permissionId)` key with an empty `update` clause — if a row for
the pair exists nothing changes, otherwise the row is created. -/
def grantPermission (grants : List RolePermission) (i : GrantPermissionInput) :
    List RolePermission :=
  if grants.any (fun rp => rp.roleId == i.roleId && rp.permissionId == i.permissionId) then
    grants
  else
    grants ++ [{ roleId := i.roleId, permissionId := i.permissionId,
                 grantedById := i.grantedById }]

/-- The row created by `grantPermission` when no grant exists. -/
def grantRow (i : GrantPermissionInput) : RolePermission :=
  { roleId := i.roleId, permissionId := i.permissionId, grantedById := i.grantedById }

/-- `roleRepository.revokePermission(roleId, permissionId)`:
`deleteMany` on the pair (no error when nothing matches). -/
def revokePermission (grants : List RolePermission) (roleId permissionId : String) :
    List RolePermission :=
  grants.filter (fun rp => !(rp.roleId == roleId && rp.permissionId == permissionId))

/-- The grant rows of one `(role, permission)` pair. -/
def pairRows (grants : List RolePermission) (roleId permissionId : String) :
    List RolePermission :=
  grants.filter (fun rp => rp.roleId == roleId && rp.permissionId == permissionId)

/-- The `{message, code}` payload of the `error(...)` Result helper. -/
structure SvcError where
  message : String
  code : String
deriving DecidableEq, Repr

/-- `UpdatePermissionInput` (all fields optional). -/
structure UpdatePermissionInput where
  name : Option String
  description : Option String
  scope : Option Scope
  isActive : Option Bool
deriving Repr

/-- A Prisma `update` with only the supplied patch fields in `data`. -/
def applyPatch (p : Permission) (patch : UpdatePermissionInput) : Permission :=
  { p with
    name := patch.name.getD p.name
    description := match patch.description with
      | some d => some d
      | none => p.description
    scope := patch.scope.getD p.scope
    isActive := patch.isActive.getD p.isActive }

/-- `permissionRepository.findById(id)`. -/
def findPermissionById (cat : List Permission) (id : String) : Option Permission :=
  cat.find? (fun p => p.id == id)

/-- `permissionService.update(id, data)`: NotFound guard, then the
system-protection guard on an explicit `isActive === false`, then the
repository update.  Returns the Result together with the catalog state
after the call. -/
def permissionUpdate (cat : List Permission) (id : String)
    (patch : UpdatePermissionInput) : Except SvcError Permission × List Permission :=
  match findPermissionById cat id with
  | none => (.error ⟨"Permission not found", "PERMISSION_NOT_FOUND"⟩, cat)
  | some existing =>
    if existing.isSystem && patch.isActive == some false then
      (.error ⟨"System permissions cannot be deactivated", "SYSTEM_PERMISSION"⟩, cat)
    else
      (.ok (applyPatch existing patch),
       cat.map (fun p => if p.id == id then applyPatch p patch else p))

/-- `permissionService.deactivate(id)`: NotFound guard, system guard,
then the repository soft delete (`isActive := false`). -/
def permissionDeactivate (cat : List Permission) (id : String) :
    Except SvcError Permission × List Permission :=
  match findPermissionById cat id with
  | none => (.error ⟨"Permission not found", "PERMISSION_NOT_FOUND"⟩, cat)
  | some existing =>
    if existing.isSystem then
      (.error ⟨"System permissions cannot be deactivated", "SYSTEM_PERMISSION"⟩, cat)
    else
      (.ok { existing with isActive := false },
       cat.map (fun p => if p.id == id then { p with isActive := false } else p))

/-- `permissionService.delete(id)`: NotFound guard, system guard, then
the repository hard delete. -/
def permissionDelete (cat : List Permission) (id : String) :
    Except SvcError Unit × List Permission :=
  match findPermissionById cat id with
  | none => (.error ⟨"Permission not found", "PERMISSION_NOT_FOUND"⟩, cat)
  | some existing =>
    if existing.isSystem then
      (.error ⟨"System permissions cannot be deleted", "SYSTEM_PERMISSION"⟩, cat)
    else
      (.ok (), cat.filter (fun p => !(p.id == id)))

/-!
Concrete fixtures used by the counterexamples and witnesses below.
Each is a small store populated through the shapes the seed data uses.
-/

/-- A MANAGE permission whose scope is OWN (the catalog allows any
scope on any action). -/
def exDocManageOwn : Permission :=
  { id := "p-dm", code := "doc:manage", name := "Manage Docs", description := none,
    resource := "DOC", action := "MANAGE", scope := Scope.OWN,
    isActive := true, isSystem := false }

/-- An exact READ permission with scope OWN. -/
def exDocReadOwn : Permission :=
  { id := "p-dro", code := "doc:read", name := "Read Own Docs", description := none,
    resource := "DOC", action := "READ", scope := Scope.OWN,
    isActive := true, isSystem := false }

/-- An exact READ permission with scope ALL. -/
def exDocReadAll : Permission :=
  { id := "p-dra", code := "doc:read:all", name := "Read All Docs", description := none,
    resource := "DOC", action := "READ", scope := Scope.ALL,
    isActive := true, isSystem := false }

/-- A deactivated permission. -/
def exDocListInactive : Permission :=
  { id := "p-dli", code := "doc:list", name := "List Docs", description := none,
    resource := "DOC", action := "LIST", scope := Scope.ALL,
    isActive := false, isSystem := false }

/-- A system-flagged catalog entry. -/
def exSysPerm : Permission :=
  { id := "p-sys", code := "user:manage", name := "Manage Users", description := none,
    resource := "USER", action := "MANAGE", scope := Scope.ALL,
    isActive := true, isSystem := true }

/-- A non-system catalog entry. -/
def exPlainPerm : Permission :=
  { id := "p-plain", code := "file:read", name := "Read Files", description := none,
    resource := "FILE", action := "READ", scope := Scope.OWN,
    isActive := true, isSystem := false }

def exRole1 : Role :=
  { id := "r1", code := "role-one", level := 10, isActive := true, isSystem := false }

def exRole2 : Role :=
  { id := "r2", code := "role-two", level := 20, isActive := true, isSystem := false }

def exRoleMgr : Role :=
  { id := "r-mgr", code := "manager", level := 50, isActive := true, isSystem := true }

/-- A currently-effective global assignment of `exRole1` to user u1. -/
def exGlobalRow : UserRole :=
  { id := "a1", userId := "u1", roleId := "r1", departmentId := none,
    assignedById := none, assignedAt := 0, expiresAt := none, isActive := true }

/-- A currently-effective assignment of `exRole2` to u1 scoped to d1. -/
def exDeptRow : UserRole :=
  { id := "a2", userId := "u1", roleId := "r2", departmentId := some "d1",
    assignedById := none, assignedAt := 0, expiresAt := none, isActive := true }

/-- An assignment of `exRoleMgr` to u1 in d1 that expired at time 5. -/
def exExpiredRow : UserRole :=
  { id := "a3", userId := "u1", roleId := "r-mgr", departmentId := some "d1",
    assignedById := none, assignedAt := 0, expiresAt := some 5, isActive := true }

/-- Store for the C1 counterexample: u1 holds only `exDocManageOwn`
through a global assignment of `exRole1`. -/
def exDB1 : DB :=
  { permissions := [exDocManageOwn], roles := [exRole1],
    rolePermissions := [{ roleId := "r1", permissionId := "p-dm", grantedById := none }],
    userRoles := [exGlobalRow] }

/-- The C1 request: a non-MANAGE action on DOC with a foreign owner. -/
def exReq1 : PermissionCheckRequest :=
  { userId := "u1", resource := "DOC", action := "READ",
    targetDepartmentId := none, targetOwnerId := some "u2" }

/-- Store for the amended C1 witness: u1 holds only the exact OWN
permission `exDocReadOwn`. -/
def exDB1b : DB :=
  { permissions := [exDocReadOwn], roles := [exRole1],
    rolePermissions := [{ roleId := "r1", permissionId := "p-dro", grantedById := none }],
    userRoles := [exGlobalRow] }

/-- Store for C2: u1's only `manager` assignment is expired. -/
def exDB2 : DB :=
  { permissions := [], roles := [exRoleMgr], rolePermissions := [],
    userRoles := [exExpiredRow] }

/-- Store for C3: role-one held globally grants `exDocReadOwn`; role-two
held in d1 grants `exDocReadAll`. -/
def exDB3 : DB :=
  { permissions := [exDocReadOwn, exDocReadAll], roles := [exRole1, exRole2],
    rolePermissions := [{ roleId := "r1", permissionId := "p-dro", grantedById := none },
                        { roleId := "r2", permissionId := "p-dra", grantedById := none }],
    userRoles := [exGlobalRow, exDeptRow] }

/-- Store for the C5 witness: u1 holds `(DOC, READ)` at scope OWN via
role-one and at scope ALL via role-two, both through currently-effective
global assignments. -/
def exDB5 : DB :=
  { permissions := [exDocReadOwn, exDocReadAll], roles := [exRole1, exRole2],
    rolePermissions := [{ roleId := "r1", permissionId := "p-dro", grantedById := none },
                        { roleId := "r2", permissionId := "p-dra", grantedById := none }],
    userRoles := [exGlobalRow,
                  { id := "a4", userId := "u1", roleId := "r2", departmentId := none,
                    assignedById := none, assignedAt := 0, expiresAt := none,
                    isActive := true }] }

/-- A request for `(DOC, READ)` with no department and no owner context. -/
def exReqRead : PermissionCheckRequest :=
  { userId := "u1", resource := "DOC", action := "READ",
    targetDepartmentId := none, targetOwnerId := none }

/-- Store for C10: role-one also carries the deactivated permission
`exDocListInactive`. -/
def exDB10 : DB :=
  { permissions := [exDocReadOwn, exDocListInactive], roles := [exRole1],
    rolePermissions := [{ roleId := "r1", permissionId := "p-dro", grantedById := none },
                        { roleId := "r1", permissionId := "p-dli", grantedById := none }],
    userRoles := [exGlobalRow] }

/-- An assignment-store input for the C7 witness. -/
def exAssignInput : AssignRoleInput :=
  { userId := "u1", roleId := "r1", departmentId := some "d1",
    assignedById := some "boss", expiresAt := some 100 }

/-- A single-row assignment store matching `exAssignInput`'s triple. -/
def exStoreRow : UserRole :=
  { id := "s1", userId := "u1", roleId := "r1", departmentId := some "d1",
    assignedById := none, assignedAt := 3, expiresAt := none, isActive := true }

/-- A grant input for the C8 witness. -/
def exGrantInput : GrantPermissionInput :=
  { roleId := "r1", permissionId := "p-dro", grantedById := some "boss" }

/-- A catalog for the C9 witness holding one system and one non-system
entry. -/
def exCatalog : List Permission := [exSysPerm, exPlainPerm]

/-- A patch attempting to deactivate. -/
def exDeactivatePatch : UpdatePermissionInput :=
  { name := none, description := none, scope := none, isActive := some false }


/-!
General lemmas about the embedded operations, shared by the claim
theorems below.
-/


theorem mem_foldl_dedup_of_mem (ps : List Permission) :
    ∀ acc q, q ∈ acc → q ∈ ps.foldl dedupStep acc := by
  induction ps with
  | nil => intro acc q h; simpa using h
  | cons p rest ih =>
    intro acc q h
    rw [List.foldl_cons]
    apply ih
    unfold dedupStep
    split
    · exact h
    · exact List.mem_append_left _ h

theorem mem_of_mem_foldl_dedup (ps : List Permission) :
    ∀ acc q, q ∈ ps.foldl dedupStep acc → q ∈ acc ∨ q ∈ ps := by
  induction ps with
  | nil => intro acc q h; simp at h; exact Or.inl h
  | cons p rest ih =>
    intro acc q h
    rw [List.foldl_cons] at h
    rcases ih _ q h with h1 | h1
    · unfold dedupStep at h1
      split at h1
      · exact Or.inl h1
      · rcases List.mem_append.mp h1 with h2 | h2
        · exact Or.inl h2
        · simp at h2; subst h2; exact Or.inr (List.mem_cons_self _ _)
    · exact Or.inr (List.mem_cons_of_mem _ h1)

theorem exists_id_mem_foldl_dedup (ps : List Permission) :
    ∀ acc p, p ∈ ps → ∃ q, q ∈ ps.foldl dedupStep acc ∧ q.id = p.id := by
  induction ps with
  | nil => intro acc p h; simp at h
  | cons hd rest ih =>
    intro acc p h
    rw [List.foldl_cons]
    rcases List.mem_cons.mp h with rfl | h1
    · by_cases hc : acc.any (fun q => q.id == p.id)
      · rcases List.any_eq_true.mp hc with ⟨q, hq, hqid⟩
        refine ⟨q, mem_foldl_dedup_of_mem _ _ _ ?_, by simpa using hqid⟩
        unfold dedupStep
        rw [if_pos hc]
        exact hq
      · refine ⟨p, mem_foldl_dedup_of_mem _ _ _ ?_, rfl⟩
        unfold dedupStep
        rw [if_neg hc]
        exact List.mem_append_right _ (List.mem_singleton.mpr rfl)
    · exact ih _ p h1

theorem mem_of_mem_dedupPermsById (ps : List Permission) (q : Permission)
    (h : q ∈ dedupPermsById ps) : q ∈ ps := by
  rcases mem_of_mem_foldl_dedup ps [] q h with h1 | h1
  · simp at h1
  · exact h1

theorem mem_dedupPermsById_of_mem (ps : List Permission)
    (hinj : ∀ a ∈ ps, ∀ b ∈ ps, a.id = b.id → a = b)
    (p : Permission) (hp : p ∈ ps) : p ∈ dedupPermsById ps := by
  rcases exists_id_mem_foldl_dedup ps [] p hp with ⟨q, hq, hid⟩
  have hqps := mem_of_mem_dedupPermsById ps q hq
  have := hinj q hqps p hp hid
  rwa [this] at hq

theorem bestOf_mem (rest : List Permission) : ∀ m, bestOf m rest ∈ m :: rest := by
  induction rest with
  | nil => intro m; simp [bestOf]
  | cons r rs ih =>
    intro m
    rw [bestOf, List.foldl_cons]
    have h := ih (scopeMax m r)
    rw [bestOf] at h
    rcases List.mem_cons.mp h with h1 | h1
    · rw [h1]
      unfold scopeMax
      split <;> simp
    · simp [h1]

theorem le_scopePriority_bestOf (rest : List Permission) :
    ∀ m x, x ∈ m :: rest →
      scopePriority x.scope ≤ scopePriority (bestOf m rest).scope := by
  induction rest with
  | nil =>
    intro m x hx
    simp at hx
    subst hx
    simp [bestOf]
  | cons r rs ih =>
    intro m x hx
    rw [bestOf, List.foldl_cons]
    have hhead : scopePriority (scopeMax m r).scope ≤
        scopePriority ((rs.foldl scopeMax (scopeMax m r))).scope := by
      have := ih (scopeMax m r) (scopeMax m r) (List.mem_cons_self _ _)
      rwa [bestOf] at this
    have hm : scopePriority m.scope ≤ scopePriority (scopeMax m r).scope := by
      unfold scopeMax
      split
      · exact Nat.le_of_lt (by assumption)
      · exact Nat.le_refl _
    have hr : scopePriority r.scope ≤ scopePriority (scopeMax m r).scope := by
      unfold scopeMax
      split
      · exact Nat.le_refl _
      · exact Nat.le_of_not_lt (by assumption)
    rcases List.mem_cons.mp hx with rfl | hx1
    · exact Nat.le_trans hm hhead
    · rcases List.mem_cons.mp hx1 with rfl | hx2
      · exact Nat.le_trans hr hhead
      · have := ih (scopeMax m r) x (List.mem_cons_of_mem _ hx2)
        rwa [bestOf] at this


theorem mem_activeRolePermissions (db : DB) (rid : String) (p : Permission)
    (h : p ∈ activeRolePermissions db rid) : p ∈ db.permissions ∧ p.isActive = true := by
  unfold activeRolePermissions at h
  rcases List.mem_filterMap.mp h with ⟨rp, hrp, hf⟩
  rcases Option.filter_eq_some.mp hf with ⟨hfind, hact⟩
  exact ⟨List.mem_of_find?_eq_some hfind, by simpa using hact⟩

theorem mem_gathered_iff (db : DB) (now : Nat) (u : String) (dept : Option String)
    (p : Permission) :
    p ∈ ((db.userRoles.filter (userRoleRowQualifies db now u dept)).map
      (fun ur => activeRolePermissions db ur.roleId)).flatten ↔
    ∃ ur, ur ∈ db.userRoles ∧ userRoleRowQualifies db now u dept ur = true ∧
      p ∈ activeRolePermissions db ur.roleId := by
  simp only [List.mem_flatten, List.mem_map, List.mem_filter]
  constructor
  · rintro ⟨l, ⟨ur, ⟨hur, hq⟩, rfl⟩, hp⟩
    exact ⟨ur, hur, hq, hp⟩
  · rintro ⟨ur, hur, hq, hp⟩
    exact ⟨_, ⟨ur, ⟨hur, hq⟩, rfl⟩, hp⟩

theorem mem_getAllUserPermissions_elim (db : DB) (now : Nat) (u : String)
    (dept : Option String) (p : Permission)
    (h : p ∈ getAllUserPermissions db now u dept) :
    ∃ ur, ur ∈ db.userRoles ∧ userRoleRowQualifies db now u dept ur = true ∧
      p ∈ activeRolePermissions db ur.roleId := by
  unfold getAllUserPermissions at h
  exact (mem_gathered_iff db now u dept p).mp (mem_of_mem_dedupPermsById _ _ h)

theorem mem_getAllUserPermissions_intro (db : DB) (now : Nat) (u : String)
    (dept : Option String) (p : Permission) (ur : UserRole)
    (hids : (db.permissions.map (fun q => q.id)).Nodup)
    (h1 : ur ∈ db.userRoles) (h2 : userRoleRowQualifies db now u dept ur = true)
    (h3 : p ∈ activeRolePermissions db ur.roleId) :
    p ∈ getAllUserPermissions db now u dept := by
  unfold getAllUserPermissions
  apply mem_dedupPermsById_of_mem
  · intro a ha b hb hab
    have ha1 := mem_gathered_iff db now u dept a |>.mp ha
    have hb1 := mem_gathered_iff db now u dept b |>.mp hb
    rcases ha1 with ⟨ua, _, _, hpa⟩
    rcases hb1 with ⟨ub, _, _, hpb⟩
    exact List.inj_on_of_nodup_map hids (mem_activeRolePermissions db _ a hpa).1
      (mem_activeRolePermissions db _ b hpb).1 hab
  · exact (mem_gathered_iff db now u dept p).mpr ⟨ur, h1, h2, h3⟩

theorem getAllUserPermissions_isActive (db : DB) (now : Nat) (u : String)
    (dept : Option String) (p : Permission)
    (h : p ∈ getAllUserPermissions db now u dept) : p.isActive = true := by
  rcases mem_getAllUserPermissions_elim db now u dept p h with ⟨ur, _, _, hp⟩
  exact (mem_activeRolePermissions db _ p hp).2


theorem checkPermission_of_no_exact (db : DB) (now : Nat) (req : PermissionCheckRequest)
    (hfil : (getAllUserPermissions db now req.userId req.targetDepartmentId).filter
      (fun p => p.resource == req.resource && p.action == req.action) = []) :
    checkPermission db now req =
      match (getAllUserPermissions db now req.userId req.targetDepartmentId).find?
          (fun p => p.resource == req.resource && p.action == "MANAGE") with
      | none =>
        { allowed := false
          reason := some ("No permission for " ++ permissionCode req.resource req.action)
          matchedPermission := none
          effectiveScope := none }
      | some mp =>
        { allowed := true, reason := none, matchedPermission := some mp,
          effectiveScope := some mp.scope } := by
  simp only [checkPermission, hfil]

theorem checkPermission_of_exact (db : DB) (now : Nat) (req : PermissionCheckRequest)
    (m : Permission) (rest : List Permission)
    (hfil : (getAllUserPermissions db now req.userId req.targetDepartmentId).filter
      (fun p => p.resource == req.resource && p.action == req.action) = m :: rest) :
    checkPermission db now req =
      if (bestOf m rest).scope == Scope.OWN && ownerMismatch req.targetOwnerId req.userId then
        { allowed := false
          reason := some "Permission only allows access to own resources"
          matchedPermission := some (bestOf m rest)
          effectiveScope := some (bestOf m rest).scope }
      else
        { allowed := true, reason := none, matchedPermission := some (bestOf m rest),
          effectiveScope := some (bestOf m rest).scope } := by
  simp only [checkPermission, hfil]


theorem scopePriority_le_three (s : Scope) : scopePriority s ≤ 3 := by
  cases s <;> simp [scopePriority]

theorem scope_eq_all_of_priority_eq_three (s : Scope) (h : 3 ≤ scopePriority s) :
    s = Scope.ALL := by
  cases s <;> simp [scopePriority] at h ⊢



/-!
Qualification and write-path lemmas.
-/

theorem userRoleRowQualifies_false_of_expired (db : DB) (now : Nat) (u : String)
    (dept : Option String) (ur : UserRole) (t : Nat)
    (he : ur.expiresAt = some t) (ht : t ≤ now) :
    userRoleRowQualifies db now u dept ur = false := by
  have h1 : expGt now ur.expiresAt = false := by
    simp [expGt, he]
    omega
  have h2 : (ur.expiresAt == none) = false := by simp [he]
  have h3 : expGt now (some t) = false := by
    simp [expGt]
    omega
  unfold userRoleRowQualifies
  cases htr : truthyStr dept <;>
    simp [htr, notExpired, h1, h2, h3, he]

theorem userRoleRowQualifies_true (db : DB) (now : Nat) (u : String)
    (dept : Option String) (ur : UserRole)
    (h1 : ur.userId = u) (h2 : ur.isActive = true)
    (h3 : roleIsActive db ur.roleId = true)
    (h4 : notExpired now ur.expiresAt = true)
    (h5 : truthyStr dept = false ∨ ur.departmentId = none ∨ ur.departmentId = dept) :
    userRoleRowQualifies db now u dept ur = true := by
  unfold userRoleRowQualifies
  have h4p : ur.expiresAt = none ∨ expGt now ur.expiresAt = true := by
    simpa [notExpired] using h4
  rcases h5 with h5 | h5 | h5
  · simp [h1, h2, h3, h5, h4]
  · cases htr : truthyStr dept
    · simp [h1, h2, h3, htr, h4]
    · simp [h1, h2, h3, htr, h5]
      tauto
  · cases htr : truthyStr dept
    · simp [h1, h2, h3, htr, h4]
    · simp [h1, h2, h3, htr, h5]
      tauto

theorem userRoleRowQualifies_false_of_other_dept (db : DB) (now : Nat) (u : String)
    (dept : Option String) (ur : UserRole)
    (htr : truthyStr dept = true) (h1 : ur.departmentId ≠ none)
    (h2 : ur.departmentId ≠ dept) :
    userRoleRowQualifies db now u dept ur = false := by
  unfold userRoleRowQualifies
  simp [htr, h1, h2]

theorem userRoleRowQualifies_false_of_other_user (db : DB) (now : Nat) (u : String)
    (dept : Option String) (ur : UserRole) (h : ur.userId ≠ u) :
    userRoleRowQualifies db now u dept ur = false := by
  unfold userRoleRowQualifies
  simp [h]

theorem getAllUserPermissions_eq_nil_of_no_qualifier (db : DB) (now : Nat)
    (u : String) (dept : Option String)
    (h : ∀ v ∈ db.userRoles, userRoleRowQualifies db now u dept v = false) :
    getAllUserPermissions db now u dept = [] := by
  have hfil : db.userRoles.filter (userRoleRowQualifies db now u dept) = [] := by
    rw [List.filter_eq_nil_iff]
    intro v hv
    simp [h v hv]
  simp [getAllUserPermissions, hfil, dedupPermsById]

theorem getUserRoles_permissions_isActive (db : DB) (now : Nat) (u : String)
    (d : UserRoleWithDetails) (hd : d ∈ getUserRoles db now u)
    (q : Permission) (hq : q ∈ d.permissions) : q.isActive = true := by
  unfold getUserRoles at hd
  have hd1 := (List.mem_filter.mp hd).1
  rcases List.mem_filterMap.mp hd1 with ⟨ur, hur, hf⟩
  cases hfr : db.findRole ur.roleId with
  | none => rw [hfr] at hf; simp at hf
  | some r =>
    rw [hfr] at hf
    injection hf with hf
    rw [← hf] at hq
    exact (mem_activeRolePermissions db _ q hq).2

theorem mem_getEffectivePermissions_elim (db : DB) (now : Nat) (u : String)
    (p : Permission) (hp : p ∈ (getEffectivePermissions db now u).permissions) :
    ∃ d ∈ getUserRoles db now u, p ∈ d.permissions := by
  unfold getEffectivePermissions at hp
  simp only at hp
  have h1 := mem_of_mem_dedupPermsById _ _ hp
  rcases List.mem_flatten.mp h1 with ⟨l, hl, hpl⟩
  rcases List.mem_map.mp hl with ⟨d, hd, rfl⟩
  exact ⟨d, hd, hpl⟩

theorem checkPermission_matched_mem (db : DB) (now : Nat)
    (req : PermissionCheckRequest) (q : Permission)
    (h : (checkPermission db now req).matchedPermission = some q) :
    q ∈ getAllUserPermissions db now req.userId req.targetDepartmentId := by
  cases hfil : (getAllUserPermissions db now req.userId req.targetDepartmentId).filter
      (fun x => x.resource == req.resource && x.action == req.action) with
  | nil =>
    rw [checkPermission_of_no_exact db now req hfil] at h
    cases hfind : (getAllUserPermissions db now req.userId req.targetDepartmentId).find?
        (fun p => p.resource == req.resource && p.action == "MANAGE") with
    | none => rw [hfind] at h; simp at h
    | some mp =>
      rw [hfind] at h
      simp only [Option.some.injEq] at h
      rw [← h]
      exact List.mem_of_find?_eq_some hfind
  | cons m rest =>
    rw [checkPermission_of_exact db now req m rest hfil] at h
    have hbfil : bestOf m rest ∈ (getAllUserPermissions db now req.userId
        req.targetDepartmentId).filter
        (fun x => x.resource == req.resource && x.action == req.action) := by
      rw [hfil]
      exact bestOf_mem rest m
    have hbmem := (List.mem_filter.mp hbfil).1
    split at h <;>
      · simp only [Option.some.injEq] at h
        rw [← h]
        exact hbmem

theorem find?_of_filter_eq_singleton {α : Type} (p : α → Bool) (l : List α) (x : α)
    (h : l.filter p = [x]) : l.find? p = some x := by
  induction l with
  | nil => simp at h
  | cons a as ih =>
    by_cases hp : p a
    · rw [List.filter_cons_of_pos hp] at h
      rw [List.find?_cons_of_pos as hp]
      have := List.cons.injEq a (as.filter p) x ([] : List α)
      rw [this] at h
      rw [h.1]
    · rw [List.filter_cons_of_neg (by simpa using hp)] at h
      rw [List.find?_cons_of_neg as (by simpa using hp)]
      exact ih h

theorem filter_map_comm {α : Type} (f : α → α) (p : α → Bool) (l : List α)
    (hf : ∀ x, p (f x) = p x) : (l.map f).filter p = (l.filter p).map f := by
  induction l with
  | nil => rfl
  | cons a as ih =>
    by_cases hp : p a
    · rw [List.map_cons, List.filter_cons_of_pos (by rw [hf]; exact hp),
        List.filter_cons_of_pos hp, List.map_cons, ih]
    · rw [List.map_cons, List.filter_cons_of_neg (by rw [hf]; simpa using hp),
        List.filter_cons_of_neg (by simpa using hp), ih]

theorem atMostOnePerTriple_assign (store : List UserRole) (now : Nat) (newId : String)
    (a : AssignRoleInput) (h : atMostOnePerTriple store) :
    atMostOnePerTriple (assign store now newId a) := by
  unfold assign
  cases hfind : store.find? (matchesTriple a.userId a.roleId a.departmentId) with
  | some e =>
    unfold atMostOnePerTriple at h ⊢
    rw [List.pairwise_map]
    apply h.imp
    intro x y hxy
    have hpres : sameTriple (if x.id == e.id then reactivateRow now a x else x)
        (if y.id == e.id then reactivateRow now a y else y) = sameTriple x y := by
      split <;> split <;> rfl
    rw [hpres]
    exact hxy
  | none =>
    unfold atMostOnePerTriple at h ⊢
    rw [List.pairwise_append]
    refine ⟨h, by simp, ?_⟩
    intro x hx y hy
    simp only [List.mem_singleton] at hy
    subst hy
    have hnone := List.find?_eq_none.mp hfind x hx
    exact Bool.eq_false_iff.mpr hnone

theorem atMostOnePerTriple_revoke (store : List UserRole) (u r : String)
    (d : Option String) (h : atMostOnePerTriple store) :
    atMostOnePerTriple (revoke store u r d) := by
  unfold atMostOnePerTriple at h ⊢
  unfold revoke
  rw [List.pairwise_map]
  apply h.imp
  intro x y hxy
  have hpres : sameTriple (if matchesTriple u r d x then deactivateRow x else x)
      (if matchesTriple u r d y then deactivateRow y else y) = sameTriple x y := by
    split <;> split <;> rfl
  rw [hpres]
  exact hxy

theorem tripleRows_revoke_then_assign (store : List UserRole) (now : Nat)
    (newId : String) (a : AssignRoleInput) (row : UserRole)
    (h : tripleRows store a.userId a.roleId a.departmentId = [row]) :
    tripleRows (assign (revoke store a.userId a.roleId a.departmentId) now newId a)
      a.userId a.roleId a.departmentId =
    [{ row with isActive := true, expiresAt := a.expiresAt,
                assignedById := a.assignedById, assignedAt := now }] := by
  have hrow : matchesTriple a.userId a.roleId a.departmentId row = true := by
    have hm : row ∈ store.filter (matchesTriple a.userId a.roleId a.departmentId) := by
      unfold tripleRows at h
      rw [h]
      exact List.mem_singleton.mpr rfl
    exact (List.mem_filter.mp hm).2
  have hg : ∀ x : UserRole, matchesTriple a.userId a.roleId a.departmentId
      (if matchesTriple a.userId a.roleId a.departmentId x then deactivateRow x else x) =
      matchesTriple a.userId a.roleId a.departmentId x := by
    intro x
    split <;> rfl
  have h1 : tripleRows (revoke store a.userId a.roleId a.departmentId)
      a.userId a.roleId a.departmentId = [deactivateRow row] := by
    unfold tripleRows revoke
    rw [filter_map_comm _ _ _ hg]
    unfold tripleRows at h
    rw [h, List.map_cons, List.map_nil, if_pos hrow]
  have hfind : (revoke store a.userId a.roleId a.departmentId).find?
      (matchesTriple a.userId a.roleId a.departmentId) = some (deactivateRow row) :=
    find?_of_filter_eq_singleton _ _ _ h1
  unfold assign
  rw [hfind]
  have hfpres : ∀ x : UserRole, matchesTriple a.userId a.roleId a.departmentId
      (if x.id == (deactivateRow row).id then reactivateRow now a x else x) =
      matchesTriple a.userId a.roleId a.departmentId x := by
    intro x
    split <;> rfl
  unfold tripleRows
  rw [filter_map_comm _ _ _ hfpres]
  unfold tripleRows at h1
  rw [h1, List.map_cons, List.map_nil, if_pos (by simp [deactivateRow])]
  rfl

theorem assign_length_of_found (store : List UserRole) (now : Nat) (newId : String)
    (a : AssignRoleInput) (e : UserRole)
    (hfind : store.find? (matchesTriple a.userId a.roleId a.departmentId) = some e) :
    (assign store now newId a).length = store.length := by
  unfold assign
  rw [hfind, List.length_map]

theorem grant_idempotent_step (g : List RolePermission) (i : GrantPermissionInput) :
    grantPermission (grantPermission g i) i = grantPermission g i := by
  by_cases hc : g.any (fun rp => rp.roleId == i.roleId && rp.permissionId == i.permissionId)
  · unfold grantPermission
    rw [if_pos hc, if_pos hc]
  · have h1 : grantPermission g i = g ++ [grantRow i] := by
      unfold grantPermission
      rw [if_neg hc]
      rfl
    rw [h1]
    have hany : (g ++ [grantRow i]).any
        (fun rp => rp.roleId == i.roleId && rp.permissionId == i.permissionId) = true := by
      rw [List.any_append]
      simp [grantRow]
    unfold grantPermission
    rw [if_pos hany]

theorem pairRows_grant_length (g : List RolePermission) (i : GrantPermissionInput)
    (hle : (pairRows g i.roleId i.permissionId).length ≤ 1) :
    (pairRows (grantPermission g i) i.roleId i.permissionId).length = 1 := by
  unfold grantPermission pairRows
  by_cases hc : g.any (fun rp => rp.roleId == i.roleId && rp.permissionId == i.permissionId)
  · rw [if_pos hc]
    rcases List.any_eq_true.mp hc with ⟨rp, hrp, hpred⟩
    have hmem : rp ∈ g.filter
        (fun rp => rp.roleId == i.roleId && rp.permissionId == i.permissionId) :=
      List.mem_filter.mpr ⟨hrp, hpred⟩
    have hpos : 0 < (g.filter
        (fun rp => rp.roleId == i.roleId && rp.permissionId == i.permissionId)).length :=
      List.length_pos.mpr (List.ne_nil_of_mem hmem)
    unfold pairRows at hle
    omega
  · rw [if_neg hc]
    rw [List.filter_append]
    have hnil : g.filter
        (fun rp => rp.roleId == i.roleId && rp.permissionId == i.permissionId) = [] := by
      rw [List.filter_eq_nil_iff]
      intro rp hrp hcontra
      exact hc (List.any_eq_true.mpr ⟨rp, hrp, hcontra⟩)
    rw [hnil]
    simp

/-!
Claim theorems, counterexamples and witnesses.
-/

/-- C1 counterexample: with only a `(DOC, MANAGE)` permission of scope OWN
and a supplied `targetOwnerId` different from `userId`, `checkPermission`
returns `allowed = true` through the MANAGE early return — the claim, as
stated, requires `allowed = false` here because the selected permission
(the MANAGE fallback) has scope OWN. -/
theorem checkPermission_manage_fallback_ignores_owner :
    (checkPermission exDB1 0 exReq1).allowed = true ∧
    (checkPermission exDB1 0 exReq1).matchedPermission = some exDocManageOwn ∧
    (checkPermission exDB1 0 exReq1).effectiveScope = some Scope.OWN ∧
    exDocManageOwn.scope = Scope.OWN ∧
    exReq1.targetOwnerId = some "u2" ∧
    exReq1.userId = "u1" ∧
    ("u2" : String) ≠ "u1" := by
  refine ⟨rfl, rfl, rfl, rfl, rfl, rfl, ?_⟩
  decide

/-- C1 (amended): when the permission selected by scope priority among the
EXACT `(resource, action)` matches has scope OWN (here: all exact matches
do) and a truthy `targetOwnerId` differing from `userId` was supplied,
`checkPermission` denies with the reason "Permission only allows access
to own resources" even though a matching permission exists.  The
MANAGE-fallback part of the original claim is dropped: that path returns
allow before the ownership check runs. -/
theorem checkPermission_own_restriction (db : DB) (now : Nat)
    (req : PermissionCheckRequest)
    (hex : ∃ p ∈ getAllUserPermissions db now req.userId req.targetDepartmentId,
      p.resource = req.resource ∧ p.action = req.action)
    (hall : ∀ p ∈ getAllUserPermissions db now req.userId req.targetDepartmentId,
      p.resource = req.resource → p.action = req.action → p.scope = Scope.OWN)
    (howner : ownerMismatch req.targetOwnerId req.userId = true) :
    (checkPermission db now req).allowed = false ∧
    (checkPermission db now req).reason =
      some "Permission only allows access to own resources" ∧
    ∃ b, (checkPermission db now req).matchedPermission = some b ∧
      b ∈ getAllUserPermissions db now req.userId req.targetDepartmentId ∧
      b.resource = req.resource ∧ b.action = req.action ∧ b.scope = Scope.OWN ∧
      (checkPermission db now req).effectiveScope = some Scope.OWN := by
  obtain ⟨p0, hp0, hres0, hact0⟩ := hex
  have hpfil : p0 ∈ (getAllUserPermissions db now req.userId
      req.targetDepartmentId).filter
      (fun x => x.resource == req.resource && x.action == req.action) := by
    rw [List.mem_filter]
    exact ⟨hp0, by simp [hres0, hact0]⟩
  cases hfil : (getAllUserPermissions db now req.userId req.targetDepartmentId).filter
      (fun x => x.resource == req.resource && x.action == req.action) with
  | nil =>
    rw [hfil] at hpfil
    simp at hpfil
  | cons m rest =>
    rw [checkPermission_of_exact db now req m rest hfil]
    have hbfil : bestOf m rest ∈ (getAllUserPermissions db now req.userId
        req.targetDepartmentId).filter
        (fun x => x.resource == req.resource && x.action == req.action) := by
      rw [hfil]
      exact bestOf_mem rest m
    have hbmem2 := List.mem_filter.mp hbfil
    have hbpred := hbmem2.2
    simp only [Bool.and_eq_true, beq_iff_eq] at hbpred
    have hbscope := hall _ hbmem2.1 hbpred.1 hbpred.2
    rw [if_pos (by simp [hbscope, howner])]
    exact ⟨rfl, rfl, bestOf m rest, rfl, hbmem2.1, hbpred.1, hbpred.2, hbscope,
      by simp [hbscope]⟩

/-- C1 witness: the amended theorem applied to a store where u1 holds the
exact `(DOC, READ, OWN)` permission and requests with owner u2. -/
theorem checkPermission_own_restriction_witness :
    (checkPermission exDB1b 0 exReq1).allowed = false ∧
    (checkPermission exDB1b 0 exReq1).reason =
      some "Permission only allows access to own resources" :=
  ⟨(checkPermission_own_restriction exDB1b 0 exReq1
      (by decide) (by decide) (by decide)).1,
   (checkPermission_own_restriction exDB1b 0 exReq1
      (by decide) (by decide) (by decide)).2.1⟩

/-- C2: the claim says `hasRole` honors the currently-effective condition
(`isActive` and `expiresAt` null or future).  In the code the object
spread overwrites the `OR` expiry clause whenever a department argument
is supplied, so an assignment that expired at time 5 still makes
`hasRole` true at time 10 when queried with its department — while the
department-less query correctly returns false.  The code contradicts the
documented "currently effective" rule its sibling queries implement. -/
theorem hasRole_department_arg_skips_expiry :
    hasRole exDB2 10 "u1" "manager" (some "d1") = true ∧
    exExpiredRow.expiresAt = some 5 ∧
    expGt 10 exExpiredRow.expiresAt = false ∧
    exDB2.userRoles = [exExpiredRow] ∧
    hasRole exDB2 10 "u1" "manager" none = false := by
  refine ⟨rfl, rfl, ?_, rfl, ?_⟩ <;> decide

/-- C3 counterexample: u1 holds role-one globally (granting
`exDocReadOwn`) and role-two scoped to d1 (granting `exDocReadAll`).
Queried with NO department, `getAllUserPermissions` applies no
department filter at all and returns the d1-scoped role's permission
too, contradicting the claim that the no-department query yields only
the global role's permissions. -/
theorem getAllUserPermissions_no_dept_includes_dept_scoped :
    exDocReadAll ∈ getAllUserPermissions exDB3 0 "u1" none ∧
    exDocReadAll ∉ activeRolePermissions exDB3 "r1" ∧
    exDeptRow.departmentId = some "d1" ∧
    exDeptRow.roleId = "r2" ∧
    exDocReadAll ∈ activeRolePermissions exDB3 "r2" := by
  refine ⟨?_, ?_, rfl, rfl, ?_⟩ <;> decide

/-- C3 (amended): with a global assignment to X and a D-scoped assignment
to Y, querying with `targetDepartmentId = D` yields the permissions of
both X and Y; querying with a different department yields only X's; and
querying with NO department also yields the permissions of both (every
assignment regardless of scope), not only X's as originally claimed. -/
theorem department_union_amended (db : DB) (now : Nat) (u dep dep2 : String)
    (urX urY : UserRole)
    (hids : (db.permissions.map (fun q => q.id)).Nodup)
    (hdep : ¬dep = "") (hdep2 : ¬dep2 = "") (hne : dep2 ≠ dep)
    (hX : urX ∈ db.userRoles ∧ urX.userId = u ∧ urX.departmentId = none ∧
      urX.isActive = true ∧ notExpired now urX.expiresAt = true ∧
      roleIsActive db urX.roleId = true)
    (hY : urY ∈ db.userRoles ∧ urY.userId = u ∧ urY.departmentId = some dep ∧
      urY.isActive = true ∧ notExpired now urY.expiresAt = true ∧
      roleIsActive db urY.roleId = true)
    (honly : ∀ v ∈ db.userRoles, v.userId = u → v = urX ∨ v = urY) :
    (∀ p ∈ activeRolePermissions db urX.roleId,
      p ∈ getAllUserPermissions db now u (some dep) ∧
      p ∈ getAllUserPermissions db now u (some dep2) ∧
      p ∈ getAllUserPermissions db now u none) ∧
    (∀ p ∈ activeRolePermissions db urY.roleId,
      p ∈ getAllUserPermissions db now u (some dep) ∧
      p ∈ getAllUserPermissions db now u none) ∧
    (∀ p ∈ getAllUserPermissions db now u (some dep2),
      p ∈ activeRolePermissions db urX.roleId) ∧
    (∀ p ∈ getAllUserPermissions db now u none,
      p ∈ activeRolePermissions db urX.roleId ∨
      p ∈ activeRolePermissions db urY.roleId) := by
  obtain ⟨hXm, hXu, hXd, hXa, hXe, hXr⟩ := hX
  obtain ⟨hYm, hYu, hYd, hYa, hYe, hYr⟩ := hY
  have hqX : ∀ d, userRoleRowQualifies db now u d urX = true := fun d =>
    userRoleRowQualifies_true db now u d urX hXu hXa hXr hXe (Or.inr (Or.inl hXd))
  have hqY1 : userRoleRowQualifies db now u (some dep) urY = true :=
    userRoleRowQualifies_true db now u (some dep) urY hYu hYa hYr hYe
      (Or.inr (Or.inr hYd))
  have hqY2 : userRoleRowQualifies db now u none urY = true :=
    userRoleRowQualifies_true db now u none urY hYu hYa hYr hYe (Or.inl rfl)
  refine ⟨?_, ?_, ?_, ?_⟩
  · intro p hp
    exact ⟨mem_getAllUserPermissions_intro db now u (some dep) p urX hids hXm (hqX _) hp,
      mem_getAllUserPermissions_intro db now u (some dep2) p urX hids hXm (hqX _) hp,
      mem_getAllUserPermissions_intro db now u none p urX hids hXm (hqX _) hp⟩
  · intro p hp
    exact ⟨mem_getAllUserPermissions_intro db now u (some dep) p urY hids hYm hqY1 hp,
      mem_getAllUserPermissions_intro db now u none p urY hids hYm hqY2 hp⟩
  · intro p hp
    rcases mem_getAllUserPermissions_elim db now u (some dep2) p hp with ⟨v, hv, hq, hpv⟩
    have hvu : v.userId = u := by
      by_contra hvu
      rw [userRoleRowQualifies_false_of_other_user db now u (some dep2) v hvu] at hq
      exact Bool.false_ne_true hq
    rcases honly v hv hvu with rfl | rfl
    · exact hpv
    · exfalso
      have := userRoleRowQualifies_false_of_other_dept db now u (some dep2) v
        (by
          have hie : dep2.isEmpty = false :=
            Bool.eq_false_iff.mpr (fun h => hdep2 ((String.isEmpty_iff dep2).mp h))
          simp [truthyStr, hie])
        (by simp [hYd])
        (by simp [hYd]; exact fun h => hne h.symm)
      rw [this] at hq
      exact Bool.false_ne_true hq
  · intro p hp
    rcases mem_getAllUserPermissions_elim db now u none p hp with ⟨v, hv, hq, hpv⟩
    have hvu : v.userId = u := by
      by_contra hvu
      rw [userRoleRowQualifies_false_of_other_user db now u none v hvu] at hq
      exact Bool.false_ne_true hq
    rcases honly v hv hvu with rfl | rfl
    · exact Or.inl hpv
    · exact Or.inr hpv

/-- C3 witness: the amended theorem applied to the concrete two-role
store. -/
theorem department_union_amended_witness :
    (exDocReadOwn ∈ getAllUserPermissions exDB3 0 "u1" (some "d2")) ∧
    (exDocReadAll ∈ getAllUserPermissions exDB3 0 "u1" (some "d1")) ∧
    (∀ p ∈ getAllUserPermissions exDB3 0 "u1" (some "d2"),
      p ∈ activeRolePermissions exDB3 "r1") := by
  have h := department_union_amended exDB3 0 "u1" "d1" "d2" exGlobalRow exDeptRow
    (by decide) (by decide) (by decide) (by decide) (by decide) (by decide)
    (by decide)
  exact ⟨(h.1 exDocReadOwn (by decide)).2.1, (h.2.1 exDocReadAll (by decide)).1,
    h.2.2.1⟩

/-- C4: if the gathered set has no exact `(R, A)` permission, then when it
contains an `(R, MANAGE)` permission `checkPermission` allows with that
MANAGE permission as `matchedPermission`, and when it contains neither,
it denies with a reason naming the missing `lower(R):lower(A)` code. -/
theorem checkPermission_manage_wildcard (db : DB) (now : Nat) (req : PermissionCheckRequest)
    (hexact : ∀ p ∈ getAllUserPermissions db now req.userId req.targetDepartmentId,
      ¬(p.resource = req.resource ∧ p.action = req.action)) :
    ((∃ mp ∈ getAllUserPermissions db now req.userId req.targetDepartmentId,
        mp.resource = req.resource ∧ mp.action = "MANAGE") →
      (checkPermission db now req).allowed = true ∧
      ∃ mp, (checkPermission db now req).matchedPermission = some mp ∧
        mp ∈ getAllUserPermissions db now req.userId req.targetDepartmentId ∧
        mp.resource = req.resource ∧ mp.action = "MANAGE" ∧
        (checkPermission db now req).effectiveScope = some mp.scope) ∧
    ((∀ p ∈ getAllUserPermissions db now req.userId req.targetDepartmentId,
        ¬(p.resource = req.resource ∧ p.action = "MANAGE")) →
      checkPermission db now req =
        { allowed := false
          reason := some ("No permission for " ++ permissionCode req.resource req.action)
          matchedPermission := none
          effectiveScope := none }) := by
  have hfil : (getAllUserPermissions db now req.userId req.targetDepartmentId).filter
      (fun p => p.resource == req.resource && p.action == req.action) = [] := by
    rw [List.filter_eq_nil_iff]
    intro p hp
    simpa using hexact p hp
  rw [checkPermission_of_no_exact db now req hfil]
  constructor
  · rintro ⟨mp, hmp, hres, hact⟩
    cases hfind : (getAllUserPermissions db now req.userId req.targetDepartmentId).find?
        (fun p => p.resource == req.resource && p.action == "MANAGE") with
    | none =>
      exfalso
      have := List.find?_eq_none.mp hfind mp hmp
      simp [hres, hact] at this
    | some q =>
      have hqpred := List.find?_some hfind
      have hqmem := List.mem_of_find?_eq_some hfind
      simp only [Bool.and_eq_true, beq_iff_eq] at hqpred
      exact ⟨rfl, q, rfl, hqmem, hqpred.1, hqpred.2, rfl⟩
  · intro hnone
    have hfind : (getAllUserPermissions db now req.userId req.targetDepartmentId).find?
        (fun p => p.resource == req.resource && p.action == "MANAGE") = none := by
      rw [List.find?_eq_none]
      intro p hp
      simpa using hnone p hp
    rw [hfind]

/-- C4 witness: `(DOC, READ)` allowed through `(DOC, MANAGE)` in a store
with no exact match. -/
theorem checkPermission_manage_wildcard_witness :
    (checkPermission exDB1 0 exReq1).allowed = true := by
  have h := checkPermission_manage_wildcard exDB1 0 exReq1 (by decide)
  exact (h.1 ⟨exDocManageOwn, by decide, by decide, by decide⟩).1

/-- C5: when exact matches exist at several scopes, `checkPermission`
selects a permission of maximal priority under ALL(3) > DEPARTMENT(2) >
OWN(1); in particular holding `(R, A, OWN)` and `(R, A, ALL)` with no
ownership conflict yields `allowed = true` with `effectiveScope = ALL`. -/
theorem checkPermission_scope_precedence (db : DB) (now : Nat)
    (req : PermissionCheckRequest) (p q : Permission)
    (hp : p ∈ getAllUserPermissions db now req.userId req.targetDepartmentId ∧
      p.resource = req.resource ∧ p.action = req.action ∧ p.scope = Scope.OWN)
    (hq : q ∈ getAllUserPermissions db now req.userId req.targetDepartmentId ∧
      q.resource = req.resource ∧ q.action = req.action ∧ q.scope = Scope.ALL) :
    (checkPermission db now req).allowed = true ∧
    (checkPermission db now req).effectiveScope = some Scope.ALL ∧
    ∃ b, (checkPermission db now req).matchedPermission = some b ∧
      b ∈ getAllUserPermissions db now req.userId req.targetDepartmentId ∧
      b.resource = req.resource ∧ b.action = req.action ∧ b.scope = Scope.ALL ∧
      ∀ r ∈ (getAllUserPermissions db now req.userId req.targetDepartmentId).filter
          (fun x => x.resource == req.resource && x.action == req.action),
        scopePriority r.scope ≤ scopePriority b.scope := by
  have hqfil : q ∈ (getAllUserPermissions db now req.userId req.targetDepartmentId).filter
      (fun x => x.resource == req.resource && x.action == req.action) := by
    rw [List.mem_filter]
    exact ⟨hq.1, by simp [hq.2.1, hq.2.2.1]⟩
  cases hfil : (getAllUserPermissions db now req.userId req.targetDepartmentId).filter
      (fun x => x.resource == req.resource && x.action == req.action) with
  | nil => rw [hfil] at hqfil; simp at hqfil
  | cons m rest =>
    rw [checkPermission_of_exact db now req m rest hfil]
    rw [hfil] at hqfil
    have hbmem : bestOf m rest ∈ m :: rest := bestOf_mem rest m
    have hble := le_scopePriority_bestOf rest m q hqfil
    rw [hq.2.2.2] at hble
    have hscope : (bestOf m rest).scope = Scope.ALL :=
      scope_eq_all_of_priority_eq_three _ (by simpa [scopePriority] using hble)
    have hbfil : bestOf m rest ∈ (getAllUserPermissions db now req.userId
        req.targetDepartmentId).filter
        (fun x => x.resource == req.resource && x.action == req.action) := by
      rw [hfil]; exact hbmem
    have hbmem2 := List.mem_filter.mp hbfil
    have hbpred := hbmem2.2
    simp only [Bool.and_eq_true, beq_iff_eq] at hbpred
    rw [if_neg (by simp [hscope])]
    refine ⟨rfl, by simp [hscope], bestOf m rest, rfl, hbmem2.1, hbpred.1, hbpred.2, hscope, ?_⟩
    intro r hr
    exact le_scopePriority_bestOf rest m r hr

/-- C5 witness: u1 holds `(DOC, READ)` at OWN and at ALL through two
roles; the check allows with effective scope ALL. -/
theorem checkPermission_scope_precedence_witness :
    (checkPermission exDB5 0 exReqRead).allowed = true ∧
    (checkPermission exDB5 0 exReqRead).effectiveScope = some Scope.ALL := by
  have h := checkPermission_scope_precedence exDB5 0 exReqRead
    exDocReadOwn exDocReadAll (by decide) (by decide)
  exact ⟨h.1, h.2.1⟩

/-- C6: an assignment whose `expiresAt` lies in the past never qualifies
and, when it is the user's only assignment, the gathered permission set
is empty; the same assignment with `expiresAt` null or in the future
(and otherwise in good standing) contributes every active permission of
its role to the gathered set. -/
theorem assignment_expiry (db : DB) (now : Nat) (u : String) (dept : Option String)
    (ur : UserRole) (t : Nat) :
    ((ur.expiresAt = some t ∧ t ≤ now) →
      userRoleRowQualifies db now u dept ur = false) ∧
    ((ur.expiresAt = some t ∧ t ≤ now ∧
        (∀ v ∈ db.userRoles, v.userId = u → v = ur)) →
      getAllUserPermissions db now u dept = []) ∧
    (((db.permissions.map (fun q => q.id)).Nodup ∧ ur ∈ db.userRoles ∧
        ur.userId = u ∧ ur.isActive = true ∧ roleIsActive db ur.roleId = true ∧
        notExpired now ur.expiresAt = true ∧
        (truthyStr dept = false ∨ ur.departmentId = none ∨ ur.departmentId = dept)) →
      ∀ p ∈ activeRolePermissions db ur.roleId,
        p ∈ getAllUserPermissions db now u dept) := by
  refine ⟨?_, ?_, ?_⟩
  · rintro ⟨he, ht⟩
    exact userRoleRowQualifies_false_of_expired db now u dept ur t he ht
  · rintro ⟨he, ht, honly⟩
    apply getAllUserPermissions_eq_nil_of_no_qualifier
    intro v hv
    by_cases hvu : v.userId = u
    · rw [honly v hv hvu]
      exact userRoleRowQualifies_false_of_expired db now u dept ur t he ht
    · exact userRoleRowQualifies_false_of_other_user db now u dept v hvu
  · rintro ⟨hids, hmem, h1, h2, h3, h4, h5⟩ p hp
    exact mem_getAllUserPermissions_intro db now u dept p ur hids hmem
      (userRoleRowQualifies_true db now u dept ur h1 h2 h3 h4 h5) hp

/-- C6 witness: the expired d1 assignment of u1 yields an empty permission
set at time 10, while the unexpired global assignment contributes its
role's permission. -/
theorem assignment_expiry_witness :
    getAllUserPermissions exDB2 10 "u1" none = [] ∧
    exDocManageOwn ∈ getAllUserPermissions exDB1 0 "u1" none := by
  have h1 := (assignment_expiry exDB2 10 "u1" none exExpiredRow 5).2.1
  have h2 := (assignment_expiry exDB1 0 "u1" none exGlobalRow 0).2.2
  exact ⟨h1 (by decide), h2 (by decide) exDocManageOwn (by decide)⟩

/-- C7: `assign` and `revoke` preserve the at-most-one-row-per
`(user, role, department)` invariant — `assign` updates the existing row
(same store length) instead of inserting a duplicate — and revoking a
triple then re-assigning it leaves exactly one row for the triple,
active, with `expiresAt`, `assignedById` overwritten and `assignedAt`
refreshed to the re-assignment time. -/
theorem assignment_unique_triple (store : List UserRole) (now : Nat) (newId : String)
    (a : AssignRoleInput) (e row : UserRole) :
    (atMostOnePerTriple store → atMostOnePerTriple (assign store now newId a)) ∧
    (atMostOnePerTriple store →
      atMostOnePerTriple (revoke store a.userId a.roleId a.departmentId)) ∧
    (store.find? (matchesTriple a.userId a.roleId a.departmentId) = some e →
      (assign store now newId a).length = store.length) ∧
    (tripleRows store a.userId a.roleId a.departmentId = [row] →
      tripleRows (assign (revoke store a.userId a.roleId a.departmentId) now newId a)
        a.userId a.roleId a.departmentId =
      [{ row with isActive := true, expiresAt := a.expiresAt,
                  assignedById := a.assignedById, assignedAt := now }]) :=
  ⟨atMostOnePerTriple_assign store now newId a,
   atMostOnePerTriple_revoke store a.userId a.roleId a.departmentId,
   assign_length_of_found store now newId a e,
   tripleRows_revoke_then_assign store now newId a row⟩

/-- C7 witness: the invariant and the revoke-then-reassign scenario on a
one-row store. -/
theorem assignment_unique_triple_witness :
    atMostOnePerTriple (assign [exStoreRow] 7 "s2" exAssignInput) ∧
    tripleRows (assign (revoke [exStoreRow] "u1" "r1" (some "d1")) 7 "s2" exAssignInput)
      "u1" "r1" (some "d1") =
    [{ exStoreRow with isActive := true, expiresAt := some 100,
                       assignedById := some "boss", assignedAt := 7 }] := by
  have h := assignment_unique_triple [exStoreRow] 7 "s2" exAssignInput
    exStoreRow exStoreRow
  exact ⟨h.1 (by simp [atMostOnePerTriple]), h.2.2.2 (by decide)⟩

/-- C8: `grantPermission` is idempotent (granting an already-granted pair
is a no-op, not an error), after granting the same pair any number of
times exactly one grant row for the pair exists, and `revokePermission`
with no matching row leaves the grant table unchanged without error. -/
theorem grantPermission_claim (g : List RolePermission) (i : GrantPermissionInput)
    (n : Nat) :
    grantPermission (grantPermission g i) i = grantPermission g i ∧
    ((pairRows g i.roleId i.permissionId).length ≤ 1 →
      (pairRows (grantPermission g i) i.roleId i.permissionId).length = 1) ∧
    ((pairRows g i.roleId i.permissionId).length ≤ 1 →
      (pairRows ((fun s => grantPermission s i)^[n + 1] g)
        i.roleId i.permissionId).length = 1) ∧
    (pairRows g i.roleId i.permissionId = [] →
      revokePermission g i.roleId i.permissionId = g) := by
  refine ⟨grant_idempotent_step g i, pairRows_grant_length g i, ?_, ?_⟩
  · intro hle
    have hfix : ∀ m : Nat, (fun s => grantPermission s i)^[m] (grantPermission g i) =
        grantPermission g i := by
      intro m
      induction m with
      | zero => rfl
      | succ k ih =>
        rw [Function.iterate_succ_apply, grant_idempotent_step g i, ih]
    rw [Function.iterate_succ_apply, hfix n]
    exact pairRows_grant_length g i hle
  · intro hnil
    unfold revokePermission
    rw [List.filter_eq_self]
    intro rp hrp
    unfold pairRows at hnil
    have := List.filter_eq_nil_iff.mp hnil rp hrp
    simp at this ⊢
    tauto

/-- C8 witness: granting the same pair three times starting from the empty
table leaves exactly one row; revoking from the empty table is a silent
no-op. -/
theorem grantPermission_claim_witness :
    grantPermission (grantPermission [] exGrantInput) exGrantInput =
      grantPermission [] exGrantInput ∧
    (pairRows ((fun s => grantPermission s exGrantInput)^[3] []) "r1" "p-dro").length = 1 ∧
    revokePermission [] "r1" "p-dro" = [] := by
  have h := grantPermission_claim [] exGrantInput 2
  exact ⟨h.1, h.2.2.1 (by decide), h.2.2.2 rfl⟩

/-- C9: `update` with an explicit `isActive = false` patch, `deactivate`,
and `delete` against a system permission each fail with the
SYSTEM_PERMISSION error and leave the catalog unchanged; all three fail
with PERMISSION_NOT_FOUND on a missing id (catalog unchanged); `delete`
on an existing non-system permission succeeds and hard-removes exactly
the rows with that id. -/
theorem permission_catalog_guards (cat : List Permission) (id : String)
    (patch : UpdatePermissionInput) (ex : Permission) :
    (findPermissionById cat id = none →
      permissionUpdate cat id patch =
        (.error ⟨"Permission not found", "PERMISSION_NOT_FOUND"⟩, cat) ∧
      permissionDeactivate cat id =
        (.error ⟨"Permission not found", "PERMISSION_NOT_FOUND"⟩, cat) ∧
      permissionDelete cat id =
        (.error ⟨"Permission not found", "PERMISSION_NOT_FOUND"⟩, cat)) ∧
    (findPermissionById cat id = some ex → ex.isSystem = true →
      (patch.isActive = some false →
        permissionUpdate cat id patch =
          (.error ⟨"System permissions cannot be deactivated", "SYSTEM_PERMISSION"⟩,
           cat)) ∧
      permissionDeactivate cat id =
        (.error ⟨"System permissions cannot be deactivated", "SYSTEM_PERMISSION"⟩, cat) ∧
      permissionDelete cat id =
        (.error ⟨"System permissions cannot be deleted", "SYSTEM_PERMISSION"⟩, cat)) ∧
    (findPermissionById cat id = some ex → ex.isSystem = false →
      (permissionDelete cat id).1 = .ok () ∧
      (∀ p ∈ (permissionDelete cat id).2, p.id ≠ id) ∧
      (∀ p ∈ cat, p.id ≠ id → p ∈ (permissionDelete cat id).2)) := by
  refine ⟨?_, ?_, ?_⟩
  · intro hnone
    unfold permissionUpdate permissionDeactivate permissionDelete
    rw [hnone]
    exact ⟨rfl, rfl, rfl⟩
  · intro hsome hsys
    refine ⟨?_, ?_, ?_⟩
    · intro hpatch
      unfold permissionUpdate
      simp only [hsome]
      have hcond : (ex.isSystem && patch.isActive == some false) = true := by
        simp [hsys, hpatch]
      rw [if_pos hcond]
    · unfold permissionDeactivate
      simp only [hsome]
      rw [if_pos hsys]
    · unfold permissionDelete
      simp only [hsome]
      rw [if_pos hsys]
  · intro hsome hsys
    unfold permissionDelete
    simp only [hsome]
    have hcond : ¬ex.isSystem = true := by simp [hsys]
    rw [if_neg hcond]
    refine ⟨rfl, ?_, ?_⟩
    · intro p hp
      have := (List.mem_filter.mp hp).2
      simpa using this
    · intro p hp hne
      exact List.mem_filter.mpr ⟨hp, by simpa using hne⟩

/-- C9 witness: the guards evaluated on a catalog with one system and one
plain permission, plus a missing id. -/
theorem permission_catalog_guards_witness :
    permissionUpdate exCatalog "p-sys" exDeactivatePatch =
      (.error ⟨"System permissions cannot be deactivated", "SYSTEM_PERMISSION"⟩,
       exCatalog) ∧
    permissionDeactivate exCatalog "p-sys" =
      (.error ⟨"System permissions cannot be deactivated", "SYSTEM_PERMISSION"⟩,
       exCatalog) ∧
    permissionDelete exCatalog "p-sys" =
      (.error ⟨"System permissions cannot be deleted", "SYSTEM_PERMISSION"⟩, exCatalog) ∧
    permissionDelete exCatalog "missing" =
      (.error ⟨"Permission not found", "PERMISSION_NOT_FOUND"⟩, exCatalog) ∧
    (permissionDelete exCatalog "p-plain").1 = .ok () := by
  have hsys := (permission_catalog_guards exCatalog "p-sys" exDeactivatePatch
    exSysPerm).2.1 (by decide) (by decide)
  have hmiss := (permission_catalog_guards exCatalog "missing" exDeactivatePatch
    exSysPerm).1 (by decide)
  have hplain := (permission_catalog_guards exCatalog "p-plain" exDeactivatePatch
    exPlainPerm).2.2 (by decide) (by decide)
  exact ⟨hsys.1 rfl, hsys.2.1, hsys.2.2, hmiss.2.2, hplain.1⟩

/-- C10: a permission whose `isActive` flag is false never appears in
`getAllUserPermissions`, in any `getUserRoles` entry's permissions, or
in `getEffectivePermissions`, and `checkPermission` never reports it as
`matchedPermission`. -/
theorem inactive_permission_invisible (db : DB) (now : Nat) (u : String)
    (dept : Option String) (req : PermissionCheckRequest) (p : Permission)
    (hp : p.isActive = false) :
    p ∉ getAllUserPermissions db now u dept ∧
    (∀ d ∈ getUserRoles db now u, p ∉ d.permissions) ∧
    p ∉ (getEffectivePermissions db now u).permissions ∧
    (checkPermission db now req).matchedPermission ≠ some p := by
  refine ⟨?_, ?_, ?_, ?_⟩
  · intro hmem
    have := getAllUserPermissions_isActive db now u dept p hmem
    rw [this] at hp
    simp at hp
  · intro d hd hmem
    have := getUserRoles_permissions_isActive db now u d hd p hmem
    rw [this] at hp
    simp at hp
  · intro hmem
    rcases mem_getEffectivePermissions_elim db now u p hmem with ⟨d, hd, hpd⟩
    have := getUserRoles_permissions_isActive db now u d hd p hpd
    rw [this] at hp
    simp at hp
  · intro h
    have hmem := checkPermission_matched_mem db now req p h
    have := getAllUserPermissions_isActive db now req.userId req.targetDepartmentId p hmem
    rw [this] at hp
    simp at hp

/-- C10 witness: the deactivated `doc:list` permission granted to u1's
role is invisible to gathering and to `checkPermission`. -/
theorem inactive_permission_invisible_witness :
    exDocListInactive ∉ getAllUserPermissions exDB10 0 "u1" none ∧
    exDocListInactive ∉ (getEffectivePermissions exDB10 0 "u1").permissions ∧
    (checkPermission exDB10 0 exReqRead).matchedPermission ≠ some exDocListInactive := by
  have h := inactive_permission_invisible exDB10 0 "u1" none exReqRead
    exDocListInactive (by decide)
  exact ⟨h.1, h.2.2.1, h.2.2.2⟩


end Rbac
